import Mathlib

namespace SysMonit

/-!
Shallow embedding of the sysMonit vehicle-counting core
(src/sistema-contagem-veiculos/src/core/{counter,detector,queue_manager,
database,config}.py) together with proofs about the embedded operations.

Conventions:
* Python ints are modelled as `Int`/`Nat`; Python float arithmetic on
  quantities derived from integer pixel coordinates and on wall-clock
  times is modelled exactly over `Rat` (the values the claims are about
  are far below any range where IEEE rounding could flip a comparison).
* Python dicts with a fixed key set become structures; lists become `List`.
* Stateful methods become pure functions `state → args → state × output`.
-/

/-! ## VehicleCounter (src/core/counter.py) -/

/-- The in-memory counter structure built by `VehicleCounter.reset`
(counter.py lines 57-63): key `'total'` plus the four category keys,
each holding `{'ida': _, 'volta': _}`. -/
structure Contadores where
  totalIda : Nat
  totalVolta : Nat
  carrosIda : Nat
  carrosVolta : Nat
  motosIda : Nat
  motosVolta : Nat
  caminhoesIda : Nat
  caminhoesVolta : Nat
  onibusIda : Nat
  onibusVolta : Nat
deriving DecidableEq, Repr

/-- `VehicleCounter.reset` (counter.py 52-64): every counter zero. -/
def resetContadores : Contadores :=
  ⟨0, 0, 0, 0, 0, 0, 0, 0, 0, 0⟩

/-- One entry of `VehicleCounter.historico` (counter.py 117-122); the
wall-clock timestamp string is irrelevant to the claims and omitted. -/
structure HistEntry where
  categoriaEn : String
  categoria : String
  sentido : String
deriving DecidableEq, Repr

/-- `VehicleCounter.categoria_map` (counter.py 33-40), as
`dict.get`: `some` portuguese name for a known YOLO class, else `none`. -/
def categoriaMap (c : String) : Option String :=
  if c = "car" then some "Carros"
  else if c = "moto" then some "Motos"
  else if c = "motorcycle" then some "Motos"
  else if c = "motor" then some "Motos"
  else if c = "truck" then some "Caminhões"
  else if c = "bus" then some "Ônibus"
  else none

/-- Read the per-category counter of `c` named by the portuguese name
`cat` for direction `sentido` (the dict access `contadores[cat][sentido]`).
Returns `none` for a key outside the structure. -/
def catVal (c : Contadores) (cat sentido : String) : Option Nat :=
  if sentido = "ida" then
    if cat = "total" then some c.totalIda
    else if cat = "Carros" then some c.carrosIda
    else if cat = "Motos" then some c.motosIda
    else if cat = "Caminhões" then some c.caminhoesIda
    else if cat = "Ônibus" then some c.onibusIda
    else none
  else if sentido = "volta" then
    if cat = "total" then some c.totalVolta
    else if cat = "Carros" then some c.carrosVolta
    else if cat = "Motos" then some c.motosVolta
    else if cat = "Caminhões" then some c.caminhoesVolta
    else if cat = "Ônibus" then some c.onibusVolta
    else none
  else none

/-- `contadores[cat][sentido] += 1` for the known keys. -/
def incCat (c : Contadores) (cat sentido : String) : Contadores :=
  if sentido = "ida" then
    if cat = "total" then { c with totalIda := c.totalIda + 1 }
    else if cat = "Carros" then { c with carrosIda := c.carrosIda + 1 }
    else if cat = "Motos" then { c with motosIda := c.motosIda + 1 }
    else if cat = "Caminhões" then { c with caminhoesIda := c.caminhoesIda + 1 }
    else if cat = "Ônibus" then { c with onibusIda := c.onibusIda + 1 }
    else c
  else
    if cat = "total" then { c with totalVolta := c.totalVolta + 1 }
    else if cat = "Carros" then { c with carrosVolta := c.carrosVolta + 1 }
    else if cat = "Motos" then { c with motosVolta := c.motosVolta + 1 }
    else if cat = "Caminhões" then { c with caminhoesVolta := c.caminhoesVolta + 1 }
    else if cat = "Ônibus" then { c with onibusVolta := c.onibusVolta + 1 }
    else c

/-- `VehicleCounter.adicionar` (counter.py 79-122), restricted to its
effect on the in-memory state `(contadores, historico)`:
empty category → early return; `sentido` outside `{ida, volta}` → early
return; unknown category → fallback `'Carros'` (line 103); the structure
membership check (line 106) always passes for the five fixed keys; then
`total[sentido] += 1`, `cat[sentido] += 1`, append a history entry.
Database writes (lines 125-132) are outside the in-memory state. -/
def adicionar (c : Contadores) (hist : List HistEntry)
    (categoriaEn sentido : String) : Contadores × List HistEntry :=
  if categoriaEn = "" then (c, hist)
  else if ¬ (sentido = "ida" ∨ sentido = "volta") then (c, hist)
  else
    let categoria := (categoriaMap categoriaEn).getD "Carros"
    let c1 := incCat c "total" sentido
    let c2 := incCat c1 categoria sentido
    (c2, hist ++ [⟨categoriaEn, categoria, sentido⟩])

/-- Invariant of §8.2: each `total` entry equals the sum across the four
categories for that direction. -/
def invTotals (c : Contadores) : Prop :=
  c.totalIda = c.carrosIda + c.motosIda + c.caminhoesIda + c.onibusIda ∧
  c.totalVolta = c.carrosVolta + c.motosVolta + c.caminhoesVolta + c.onibusVolta

instance (c : Contadores) : Decidable (invTotals c) := by
  unfold invTotals; infer_instance

/-! ## CounterDatabase.save_counters / load_counters (src/core/database.py) -/

/-- One row of the `contadores` table: `(categoria, sentido, valor)`.
All rows of this table are written by `save_counters` from the in-memory
`Nat` counters, so `valor` is a `Nat`. -/
structure CounterRow where
  categoria : String
  sentido : String
  valor : Nat
deriving DecidableEq, Repr

/-- `CounterDatabase.save_counters` (database.py 240-268): one row per
`(categoria ≠ 'total', sentido)` in dict insertion order, with the
current value. -/
def save_counters (c : Contadores) : List CounterRow :=
  [⟨"Carros", "ida", c.carrosIda⟩, ⟨"Carros", "volta", c.carrosVolta⟩,
   ⟨"Motos", "ida", c.motosIda⟩, ⟨"Motos", "volta", c.motosVolta⟩,
   ⟨"Caminhões", "ida", c.caminhoesIda⟩, ⟨"Caminhões", "volta", c.caminhoesVolta⟩,
   ⟨"Ônibus", "ida", c.onibusIda⟩, ⟨"Ônibus", "volta", c.onibusVolta⟩]

/-- The row-application loop of `load_counters` (database.py 291-293):
`if categoria in contadores: contadores[categoria][sentido] = valor`.
(An unknown `sentido` would add an inner-dict key that no later read of
the structure ever touches; the projection to the fixed keys drops it.) -/
def applyRow (c : Contadores) (r : CounterRow) : Contadores :=
  if r.sentido = "ida" then
    if r.categoria = "total" then { c with totalIda := r.valor }
    else if r.categoria = "Carros" then { c with carrosIda := r.valor }
    else if r.categoria = "Motos" then { c with motosIda := r.valor }
    else if r.categoria = "Caminhões" then { c with caminhoesIda := r.valor }
    else if r.categoria = "Ônibus" then { c with onibusIda := r.valor }
    else c
  else if r.sentido = "volta" then
    if r.categoria = "total" then { c with totalVolta := r.valor }
    else if r.categoria = "Carros" then { c with carrosVolta := r.valor }
    else if r.categoria = "Motos" then { c with motosVolta := r.valor }
    else if r.categoria = "Caminhões" then { c with caminhoesVolta := r.valor }
    else if r.categoria = "Ônibus" then { c with onibusVolta := r.valor }
    else c
  else c

/-- The total recomputation of `load_counters` (database.py 296-299). -/
def recomputeTotals (c : Contadores) : Contadores :=
  { c with
    totalIda := c.carrosIda + c.motosIda + c.caminhoesIda + c.onibusIda,
    totalVolta := c.carrosVolta + c.motosVolta + c.caminhoesVolta + c.onibusVolta }

/-- `CounterDatabase.load_counters` (database.py 270-301): start from the
all-zero default structure, apply each row, then recompute both totals as
the sum across the non-`total` categories. -/
def load_counters (rows : List CounterRow) : Contadores :=
  recomputeTotals (rows.foldl applyRow resetContadores)

/-! ## Sequences of counter operations (for the totals invariant) -/

/-- The operations that write the in-memory counter structure:
`reset` (counter.py 52-64), `adicionar` (79-122), and the constructor
path that loads a snapshot from the database (counter.py 43-44 via
database.py 270-301, which also leaves `historico = []`). -/
inductive CounterOp
| reset
| add (categoriaEn sentido : String)
| load (rows : List CounterRow)

/-- Apply one operation to the in-memory state. -/
def applyOp (s : Contadores × List HistEntry) (op : CounterOp) :
    Contadores × List HistEntry :=
  match op with
  | .reset => (resetContadores, [])
  | .add categoriaEn sentido => adicionar s.1 s.2 categoriaEn sentido
  | .load rows => (load_counters rows, [])

/-- Run a sequence of operations from the freshly reset state. -/
def runOps (ops : List CounterOp) : Contadores × List HistEntry :=
  ops.foldl applyOp (resetContadores, [])

/-! ## VideoThread.crossed_horizontal_line (src/core/detector.py 523-537) -/

/-- `VideoThread.crossed_horizontal_line(prev_xy, curr_xy, x1, x2, y, band)`.
All pixel coordinates at the call site (detector.py 681-713) are Python
ints; the float test `abs(denom) < 1e-6` on an integer denominator is
exactly `denom = 0`, and the float quotient `t` and product `x_cross` are
modelled exactly over `Rat`. Result mirrors the source's
`(crossed, x_cross, sentido)` triple. -/
def crossed_horizontal_line (prevXY currXY : Int × Int) (x1 x2 y band : Int) :
    Bool × Option Rat × Option String :=
  let px := prevXY.1
  let py := prevXY.2
  let cx := currXY.1
  let cy := currXY.2
  let prevSide := py - y
  let currSide := cy - y
  if (prevSide > band ∧ currSide > band) ∨ (prevSide < -band ∧ currSide < -band) then
    (false, none, none)
  else
    let denom := cy - py
    if denom = 0 then (false, none, none)
    else
      let t : Rat := ((y : Rat) - (py : Rat)) / (denom : Rat)
      if ¬ (0 ≤ t ∧ t ≤ 1) then (false, none, none)
      else
        let xCross : Rat := (px : Rat) + t * ((cx : Rat) - (px : Rat))
        if (x1 : Rat) ≤ xCross ∧ xCross ≤ (x2 : Rat) then
          if py ≥ y ∧ cy < y then (true, some xCross, some "ida")
          else if py < y ∧ cy ≥ y then (true, some xCross, some "volta")
          else (false, none, none)
        else (false, none, none)

/-! ## VideoThread.apply_roi_crop (src/core/detector.py 500-521) -/

/-- The `roi_crop` configuration percents (config keys `top_percent`,
`bottom_percent`, `left_percent`, `right_percent`); JSON numbers are
modelled as `Rat`. -/
structure RoiCrop where
  topPercent : Rat
  bottomPercent : Rat
  leftPercent : Rat
  rightPercent : Rat
deriving DecidableEq, Repr

/-- The clamp `max(0, min(50, p))` of detector.py 508-511. -/
def clamp50 (p : Rat) : Rat := max 0 (min 50 p)

/-- `VideoThread.apply_roi_crop` on a frame of height `h` and width `w`,
returning the axis windows `((y_start, y_end), (x_start, x_end))` of the
slice `frame[y_start:y_end, x_start:x_end]` (the source also returns
`(y_start, x_start)` as offsets). `int(...)` on the non-negative float
products is floor. -/
def apply_roi_crop (useRoi : Bool) (cfg : RoiCrop) (h w : Nat) :
    (Int × Int) × (Int × Int) :=
  if ¬ useRoi then ((0, (h : Int)), (0, (w : Int)))
  else
    let top := clamp50 cfg.topPercent
    let bottom := clamp50 cfg.bottomPercent
    let left := clamp50 cfg.leftPercent
    let right := clamp50 cfg.rightPercent
    let yStart := ⌊(h : Rat) * top / 100⌋
    let yEnd := ⌊(h : Rat) * (100 - bottom) / 100⌋
    let xStart := ⌊(w : Rat) * left / 100⌋
    let xEnd := ⌊(w : Rat) * (100 - right) / 100⌋
    let yWin := if yEnd ≤ yStart ∨ yEnd - yStart < 32 then (0, (h : Int)) else (yStart, yEnd)
    let xWin := if xEnd ≤ xStart ∨ xEnd - xStart < 32 then (0, (w : Int)) else (xStart, xEnd)
    (yWin, xWin)

/-! ## RTSPBufferedCapture frame buffer (src/core/detector.py 186-299) -/

/-- The buffer-relevant state of `RTSPBufferedCapture`: the bounded FIFO
`frame_queue` (front = oldest queued frame; frames identified by `Nat`),
the `last_good_frame` fallback, and the epoch `last_new_frame_time` of
the last frame actually delivered by `read()` (0.0 before the first). -/
structure CaptureState where
  bufferSize : Nat
  frameQueue : List Nat
  lastGoodFrame : Option Nat
  lastNewFrameTime : Rat
deriving DecidableEq, Repr

/-- `RTSPBufferedCapture.FREEZE_TIMEOUT = 10.0` (detector.py 186). -/
def FREEZE_TIMEOUT : Rat := 10

/-- The enqueue step of `_read_loop` (detector.py 267-279): when the
queue is full, drop the oldest frame (`get_nowait`), then append the new
frame at the back (`put_nowait`). -/
def pushFrame (s : CaptureState) (f : Nat) : CaptureState :=
  let q := if s.bufferSize ≤ s.frameQueue.length then s.frameQueue.tail else s.frameQueue
  { s with frameQueue := q ++ [f] }

/-- `RTSPBufferedCapture.read` (detector.py 285-299): pop the queue head
if any (recording delivery time and last good frame); on an empty queue
return `(False, None)` when a frame was delivered before and more than
`FREEZE_TIMEOUT` has elapsed since (freeze), else a shallow copy of the
last good frame, else `(False, None)`. -/
def readCapture (s : CaptureState) (now : Rat) : (Bool × Option Nat) × CaptureState :=
  match s.frameQueue with
  | f :: rest =>
      ((true, some f),
        { s with frameQueue := rest, lastNewFrameTime := now, lastGoodFrame := some f })
  | [] =>
      if 0 < s.lastNewFrameTime ∧ FREEZE_TIMEOUT < now - s.lastNewFrameTime then
        ((false, none), s)
      else
        match s.lastGoodFrame with
        | some g => ((true, some g), s)
        | none => ((false, none), s)

/-! ## QueueManager (src/core/queue_manager.py) -/

/-- `ENTER_FRAMES = 3` (queue_manager.py 20). -/
def ENTER_FRAMES : Nat := 3

/-- `EXIT_FRAMES = 12` (queue_manager.py 21). -/
def EXIT_FRAMES : Nat := 12

/-- The default `queue_config.min_wait_time` of `Config.default_config`
(config.py 65). -/
def DEFAULT_MIN_WAIT : Rat := 5

/-- `round(x, 2)` of Python (queue_manager.py 195): round to the nearest
centi-second, ties to even; the float representation is abstracted to the
exact rational. -/
def roundHalfEven (q : Rat) : Int :=
  if q - ⌊q⌋ < 1/2 then ⌊q⌋
  else if 1/2 < q - ⌊q⌋ then ⌊q⌋ + 1
  else if ⌊q⌋ % 2 = 0 then ⌊q⌋ else ⌊q⌋ + 1

/-- Round a wait to two decimals, as stored in a queue event. -/
def round2 (q : Rat) : Rat := (roundHalfEven (q * 100) : Rat) / 100

/-- The per-track state machine phase (`'IDLE' | 'IN_QUEUE' | 'FINISHED'`,
queue_manager.py 106, 134, 189/221). -/
inductive QPhase
| idle
| inQueue
| finished
deriving DecidableEq, Repr

/-- The per-track entry of `waiting_vehicles` (queue_manager.py 104-114);
`last_pos`, `history` and `class` are rendering/reporting payload with no
effect on the state machine and are omitted. -/
structure QVehicle where
  phase : QPhase
  entryTime : Rat
  currentWait : Rat
  framesInside : Nat
  framesOutside : Nat
deriving DecidableEq, Repr

/-- The initial per-track entry (queue_manager.py 104-114). -/
def initVehicle : QVehicle := ⟨.idle, 0, 0, 0, 0⟩

/-- A finalized queue event as appended to `session_history` and passed
to `QueueDatabase.save_event` (queue_manager.py 192-216): entry and exit
epochs (the source formats them as second-precision local-time strings)
and the rounded wait. -/
structure QEvent where
  trackId : Nat
  entryTime : Rat
  exitTime : Rat
  waitSec : Rat
deriving DecidableEq, Repr

/-- The `QueueManager` state projected to one track id: its
`waiting_vehicles` entry, `session_history`, and the events handed to the
database (`QueueDatabase.save_event` appends one row per call,
queue_database.py 78-96). -/
structure QMState where
  vehicle : Option QVehicle
  sessionHistory : List QEvent
  dbEvents : List QEvent
deriving DecidableEq, Repr

/-- `QueueManager._finalize_vehicle` (queue_manager.py 185-221): a wait
below `min_wait_time` is discarded (state untouched, vehicle `FINISHED`);
otherwise one event with the rounded `current_wait`, the stored
`entry_time` and the caller's `current_time` is appended to the session
history and persisted. -/
def finalizeVehicle (minWait : Rat) (s : QMState) (v : QVehicle) (tid : Nat)
    (t : Rat) : QMState × QVehicle :=
  if v.currentWait < minWait then (s, { v with phase := .finished })
  else
    let ev : QEvent := ⟨tid, v.entryTime, t, round2 v.currentWait⟩
    ({ s with sessionHistory := s.sessionHistory ++ [ev],
              dbEvents := s.dbEvents ++ [ev] },
     { v with phase := .finished })

/-- The state-machine step of `update` for a track reported this frame
(queue_manager.py 128-151). -/
def qmStepPresent (minWait : Rat) (s : QMState) (inside : Bool) (tid : Nat)
    (t : Rat) (v0 : QVehicle) : QMState × QVehicle :=
  match v0.phase with
  | .idle =>
      if inside then
        let fi := v0.framesInside + 1
        if ENTER_FRAMES ≤ fi then
          (s, { v0 with phase := .inQueue, entryTime := t,
                        framesInside := 0, framesOutside := 0 })
        else (s, { v0 with framesInside := fi, framesOutside := 0 })
      else (s, { v0 with framesInside := 0 })
  | .inQueue =>
      let v1 := { v0 with currentWait := t - v0.entryTime }
      if ¬ inside then
        let fo := v1.framesOutside + 1
        let v2 := { v1 with framesOutside := fo, framesInside := 0 }
        if EXIT_FRAMES ≤ fo then finalizeVehicle minWait s v2 tid t
        else (s, v2)
      else (s, { v1 with framesOutside := 0, framesInside := v1.framesInside + 1 })
  | .finished => (s, v0)

/-- `QueueManager.update` (queue_manager.py 84-183) projected to one
track id. `present` says whether the tracker reported the id this frame,
`inside` is the point-in-polygon result for its foot point (the
`cv2.pointPolygonTest ≥ 0` call, an external geometric primitive).
An absent `IN_QUEUE` vehicle is finalized immediately (lines 160-166);
`FINISHED` entries are removed at the end of the update (168-170). -/
def qmUpdate (minWait : Rat) (s : QMState) (present inside : Bool) (tid : Nat)
    (t : Rat) : QMState :=
  if present then
    if (qmStepPresent minWait s inside tid t (s.vehicle.getD initVehicle)).2.phase
        = .finished then
      { (qmStepPresent minWait s inside tid t (s.vehicle.getD initVehicle)).1 with
          vehicle := none }
    else
      { (qmStepPresent minWait s inside tid t (s.vehicle.getD initVehicle)).1 with
          vehicle := some (qmStepPresent minWait s inside tid t (s.vehicle.getD initVehicle)).2 }
  else
    match s.vehicle with
    | some v =>
        if v.phase = .inQueue then
          { (finalizeVehicle minWait s v tid t).1 with vehicle := none }
        else { s with vehicle := none }
    | none => s

/-- Run `update` over a trace of `(present, inside, current_time)`
observations for one track id, from the empty manager state. -/
def qmRun (minWait : Rat) (steps : List (Bool × Bool × Rat)) (tid : Nat) : QMState :=
  steps.foldl (fun s st => qmUpdate minWait s st.1 st.2.1 tid st.2.2) ⟨none, [], []⟩

/-! ## Per-track counting state machine (detector.py 695-765) -/

/-- The two zone names (`'down'`/`'up'`, detector.py 744). -/
inductive ZoneTag
| down
| up
deriving DecidableEq, Repr

/-- The per-track transient maps of `VideoThread` (detector.py 374-379)
gathered for one track id: `track_counted[tid]`, `track_last_center_xy[tid]`,
`track_last_zone[tid]`, `track_last_event_time[tid]`. -/
structure TrackState where
  countedIda : Bool
  countedVolta : Bool
  lastCenter : Int × Int
  lastZone : Option ZoneTag
  lastEventTime : Rat
deriving DecidableEq, Repr

/-- The line configuration as used per frame (detector.py 679-683,
716-727): line extent and height in pixels, band, optional midpoint pixel
(`int(pw * x_mid_ratio)`), invert flag and direction filter. -/
structure LineCfg where
  lx1 : Int
  lx2 : Int
  ly : Int
  band : Int
  xMid : Option Int
  invert : Bool
  directionMode : String
deriving DecidableEq, Repr

/-- The zone configuration as used per frame (detector.py 685-693,
741-760): the two rectangles in pixels, the direction assigned to each
zone (`zones_direction.get`), and the event cooldown. -/
structure ZoneCfg where
  downRect : Int × Int × Int × Int
  upRect : Int × Int × Int × Int
  zonesDirDown : Option String
  zonesDirUp : Option String
  cooldown : Rat
deriving DecidableEq, Repr

/-- `in_rect` (detector.py 690-693) on pixel coordinates:
`x1 ≤ pt.x ≤ x2 ∧ y1 ≤ pt.y ≤ y2`. -/
def inRect (pt : Int × Int) (rect : Int × Int × Int × Int) : Bool :=
  rect.1 ≤ pt.1 ∧ pt.1 ≤ rect.2.2.1 ∧ rect.2.1 ≤ pt.2 ∧ pt.2 ≤ rect.2.2.2

/-- The shared idempotence guard of both counting modes (detector.py
730-737 and 751-758): count a direction only when the track has not yet
been counted in it; at most one direction per step, `ida` checked first. -/
def applyCount (counted : Bool × Bool) (target : Option String) :
    (Bool × Bool) × Option String :=
  if target = some "ida" ∧ ¬ counted.1 then ((true, counted.2), some "ida")
  else if target = some "volta" ∧ ¬ counted.2 then ((counted.1, true), some "volta")
  else (counted, none)

/-- The direction a line-mode frame would count (detector.py 713-728):
`None` when the crossing test fails; otherwise the raw crossing direction
after the midpoint override (`x_cross < x_mid → 'ida'`), the inversion
swap, and the direction filter (`ida_only` drops `volta` and vice versa,
by resetting `crossed`). -/
def lineTarget (cfg : LineCfg) (r : Bool × Option Rat × Option String) :
    Option String :=
  if r.1 then
    let se1 := match cfg.xMid, r.2.1 with
      | some xm, some xc => some (if xc < (xm : Rat) then "ida" else "volta")
      | _, _ => r.2.2
    let se2 := if cfg.invert then some (if se1 = some "ida" then "volta" else "ida") else se1
    let keep :=
      if cfg.directionMode = "ida_only" ∧ se2 = some "volta" then false
      else if cfg.directionMode = "volta_only" ∧ se2 = some "ida" then false
      else true
    if keep then se2 else none
  else none

/-- Line-mode step for one track (detector.py 712-737): the crossing
filters select the direction to count (or `None`), then the guarded
count runs. Returns the updated `counted` flags and the emitted
direction, if any. -/
def lineStep (cfg : LineCfg) (counted : Bool × Bool) (prev curr : Int × Int) :
    (Bool × Bool) × Option String :=
  applyCount counted
    (lineTarget cfg (crossed_horizontal_line prev curr cfg.lx1 cfg.lx2 cfg.ly cfg.band))

/-- The direction a zone-mode frame would count (detector.py 747-750):
only on a zone change (`now ≠ was`, `now ∈ {down, up}`), through the
direction configured for the entered zone, and outside the cooldown. -/
def zoneTarget (cfg : ZoneCfg) (lastZone : Option ZoneTag) (lastEvt : Rat)
    (nowZ : Option ZoneTag) (t : Rat) : Option String :=
  match nowZ with
  | some z =>
      if nowZ ≠ lastZone then
        match (match z with | .down => cfg.zonesDirDown | .up => cfg.zonesDirUp) with
        | some target => if cfg.cooldown < t - lastEvt then some target else none
        | none => none
      else none
  | none => none

/-- Zone-mode step for one track (detector.py 741-760): classify the
centroid (`down` checked first), run the guarded count on the selected
direction; `last_event_time` advances exactly when a count occurs, and
`last_zone` is always overwritten with the current classification.
Returns `((counted, emitted), (new last_zone, new last_event_time))`. -/
def zoneStep (cfg : ZoneCfg) (counted : Bool × Bool) (lastZone : Option ZoneTag)
    (lastEvt : Rat) (curr : Int × Int) (t : Rat) :
    ((Bool × Bool) × Option String) × (Option ZoneTag × Rat) :=
  let nowZ : Option ZoneTag :=
    if inRect curr cfg.downRect then some .down
    else if inRect curr cfg.upRect then some .up
    else none
  let res := applyCount counted (zoneTarget cfg lastZone lastEvt nowZ t)
  (res, (nowZ, if res.2.isSome then t else lastEvt))

/-- The per-track `counted` flags, with the source's defaulting for a
track id not yet in `track_counted` (detector.py 705-706). -/
def countedOf : Option TrackState → Bool × Bool
| some s => (s.countedIda, s.countedVolta)
| none => (false, false)

/-- `track_last_center_xy.get(track_id, curr_xy)` (detector.py 708). -/
def prevOf (ts : Option TrackState) (curr : Int × Int) : Int × Int :=
  match ts with
  | some s => s.lastCenter
  | none => curr

/-- `track_last_zone.get(track_id)` (detector.py 745). -/
def lastZoneOf : Option TrackState → Option ZoneTag
| some s => s.lastZone
| none => none

/-- `track_last_event_time.get(track_id, 0)` (detector.py 749). -/
def lastEvtOf : Option TrackState → Rat
| some s => s.lastEventTime
| none => 0

/-- One full monitoring step for one track (detector.py 695-765, after
the `categorias` class filter — a filtered-out frame changes nothing):
defaulted reads of the per-track maps, the configured mode's logic, then
the `last_center`/`last_zone`/`last_event_time` writes. -/
def trackStep (mode : String) (lc : LineCfg) (zc : ZoneCfg)
    (ts : Option TrackState) (curr : Int × Int) (t : Rat) :
    TrackState × Option String :=
  if mode = "line" then
    let r := lineStep lc (countedOf ts) (prevOf ts curr) curr
    (⟨r.1.1, r.1.2, curr, lastZoneOf ts, lastEvtOf ts⟩, r.2)
  else
    let r := zoneStep zc (countedOf ts) (lastZoneOf ts) (lastEvtOf ts) curr t
    (⟨r.1.1.1, r.1.1.2, curr, r.2.1, r.2.2⟩, r.1.2)

/-- One frame of a track's lifetime: apply `trackStep` and append the
emitted event, if any, to the event log. -/
def runStep (acc : Option TrackState × List String)
    (st : String × LineCfg × ZoneCfg × (Int × Int) × Rat) :
    Option TrackState × List String :=
  (some (trackStep st.1 st.2.1 st.2.2.1 acc.1 st.2.2.2.1 st.2.2.2.2).1,
    acc.2 ++ (trackStep st.1 st.2.1 st.2.2.1 acc.1 st.2.2.2.1 st.2.2.2.2).2.toList)

/-- Run the monitoring steps of one track lifetime (no `TRACK_TTL`
expiry in between, detector.py 788-795): each frame brings the mode and
configuration reread from the config, the centroid, and the time. -/
def runTrack (steps : List (String × LineCfg × ZoneCfg × (Int × Int) × Rat)) :
    Option TrackState × List String :=
  steps.foldl runStep (none, [])

/-! ## Interleaving of `_read_loop`/`_safe_base_read` and `release`
(detector.py 220-252, 254-283, 310-330)

The reader thread, the read sub-threads it spawns, and the thread calling
`release()` interleave; each atomic program step of the source becomes a
labelled transition. A join with a timeout may return while the joined
thread is still alive — that is its defining behaviour, so such steps are
always enabled. -/

/-- Program counter of the reader thread `_read_loop`, inlining the
single `_safe_base_read` call per iteration: the `while self.running`
test (254-256), the sub-thread spawn with tracking (236-239), the 6 s
`t.join` (240), the tracked-thread clear (241-243), and the
`if not self.running: break` re-check (260-262); the queue operations of
263-279 touch no shared capture state. -/
inductive RPhase
| loopTest
| spawn
| joining
| clearing
| postCheck
| finished
deriving DecidableEq, Repr

/-- Program counter of the thread executing `release()` (310-330):
`self.running = False` (311), the 8 s reader join (312-315), the locked
read of `_active_read_thread` (323-324), the 7 s join of an alive active
sub-thread (325-326), and `base_capture.release()` (327-330). -/
inductive LPhase
| start
| joinReader
| readActive
| joinActive
| doRelease
| finished
deriving DecidableEq, Repr

/-- Shared and per-thread state of one `RTSPBufferedCapture` during
shutdown. `inFlight` holds the ids of sub-threads currently blocked
inside `base_capture.read()` (the native read); `active` is
`_active_read_thread`; `currentSub` is the reader's local `t`;
`localActive` is `release()`'s local `active`; `released` records that
`base_capture.release()` has run. -/
structure RelSys where
  running : Bool
  active : Option Nat
  inFlight : List Nat
  released : Bool
  rphase : RPhase
  currentSub : Option Nat
  lphase : LPhase
  localActive : Option Nat
  nextId : Nat
deriving DecidableEq, Repr

/-- The atomic actions of the three threads. -/
inductive RelAct
  /-- Reader: `while self.running` (254) — enter the body or leave. -/
  | rLoopTest
  /-- Reader: `_safe_base_read` creates the sub-thread, records it in
`_active_read_thread` under the lock, and starts it; the sub-thread
enters `base_capture.read()` (228-239). -/
  | rSpawn
  /-- Reader: `t.join(timeout=6.0)` returns because the sub-thread has
already left `base_capture.read()` (240). -/
  | rJoinQuick
  /-- Reader: `t.join(timeout=6.0)` elapses while the sub-thread is still
blocked inside `base_capture.read()` (240); `_safe_base_read` then
reports a timeout (245-248). -/
  | rJoinTimeout
  /-- Reader: under the lock, `if self._active_read_thread is t:
self._active_read_thread = None` (241-243) — run in both join outcomes. -/
  | rClear
  /-- Reader: `if not self.running: break` (260-262), else next iteration. -/
  | rPostCheck
  /-- A read sub-thread returns from `base_capture.read()` (232-234). -/
  | nReturn (tid : Nat)
  /-- release(): `self.running = False` (311). -/
  | lStop
  /-- release(): `self.thread.join(timeout=8.0)` returns — either because
the reader finished or because the 8 s elapsed (312-315). -/
  | lJoinReader
  /-- release(): `with lock: active = self._active_read_thread` (323-324). -/
  | lReadActive
  /-- release(): skip or perform `active.join(timeout=7.0)` — with a dead
or missing tracked thread nothing is awaited; an alive one is joined for
at most 7 s, after which release proceeds regardless (325-326). -/
  | lJoinActive
  /-- release(): `self.base_capture.release()` (327-330). -/
  | lRelease
deriving DecidableEq, Repr

/-- The guarded transition relation: `none` when the action is not
enabled in the given state. -/
def relStep (s : RelSys) (a : RelAct) : Option RelSys :=
  match a with
  | .rLoopTest =>
      if s.rphase = .loopTest then
        some (if s.running then { s with rphase := .spawn }
              else { s with rphase := .finished })
      else none
  | .rSpawn =>
      if s.rphase = .spawn then
        some { s with
                rphase := .joining
                currentSub := some s.nextId
                active := some s.nextId
                inFlight := s.inFlight ++ [s.nextId]
                nextId := s.nextId + 1 }
      else none
  | .rJoinQuick =>
      match s.currentSub with
      | some tid =>
          if s.rphase = .joining ∧ ¬ s.inFlight.contains tid then
            some { s with rphase := .clearing }
          else none
      | none => none
  | .rJoinTimeout =>
      match s.currentSub with
      | some tid =>
          if s.rphase = .joining ∧ s.inFlight.contains tid then
            some { s with rphase := .clearing }
          else none
      | none => none
  | .rClear =>
      if s.rphase = .clearing then
        some { s with
                rphase := .postCheck
                active := if s.active = s.currentSub then none else s.active }
      else none
  | .rPostCheck =>
      if s.rphase = .postCheck then
        some (if s.running then { s with rphase := .loopTest }
              else { s with rphase := .finished })
      else none
  | .nReturn tid =>
      if s.inFlight.contains tid then
        some { s with inFlight := s.inFlight.erase tid }
      else none
  | .lStop =>
      if s.lphase = .start then
        some { s with running := false, lphase := .joinReader }
      else none
  | .lJoinReader =>
      if s.lphase = .joinReader then
        some { s with lphase := .readActive }
      else none
  | .lReadActive =>
      if s.lphase = .readActive then
        some { s with lphase := .joinActive, localActive := s.active }
      else none
  | .lJoinActive =>
      if s.lphase = .joinActive then
        some { s with lphase := .doRelease }
      else none
  | .lRelease =>
      if s.lphase = .doRelease then
        some { s with released := true, lphase := .finished }
      else none

/-- The state before shutdown: reader at its loop head, no read pending,
`release()` about to run. -/
def relInit : RelSys :=
  { running := true, active := none, inFlight := [], released := false,
    rphase := .loopTest, currentSub := none, lphase := .start,
    localActive := none, nextId := 0 }

/-- Execute a schedule; `none` as soon as an action is not enabled. -/
def relRun (acts : List RelAct) : Option RelSys :=
  acts.foldl (fun s a => s.bind (fun st => relStep st a)) (some relInit)

/-- The schedule on which the tracking fails: the native read blocks past
the 6 s join timeout, `_safe_base_read` clears `_active_read_thread`
anyway, then `release()` runs to completion. -/
def staleTrackingSchedule : List RelAct :=
  [.rLoopTest, .rSpawn, .rJoinTimeout, .rClear, .lStop, .rPostCheck,
   .lJoinReader, .lReadActive, .lJoinActive, .lRelease]

/-! Theorems: sanity examples, helper lemmas, and the claim
verdicts with their counterexamples and witnesses. -/

/-! Sanity examples (concrete evaluations of the embedded operations). -/

example : (adicionar resetContadores [] "car" "ida").1.carrosIda = 1 := by decide

example : (adicionar resetContadores [] "dog" "ida").1.carrosIda = 1 := by decide

example : load_counters (save_counters (adicionar resetContadores [] "bus" "volta").1)
    = (adicionar resetContadores [] "bus" "volta").1 := by decide

/-- The portuguese category selected by `adicionar` is always one of the
four non-total keys. -/
theorem categoria_getD_cases (s : String) :
    (categoriaMap s).getD "Carros" = "Carros" ∨
    (categoriaMap s).getD "Carros" = "Motos" ∨
    (categoriaMap s).getD "Carros" = "Caminhões" ∨
    (categoriaMap s).getD "Carros" = "Ônibus" := by
  unfold categoriaMap
  repeat' split
  all_goals simp

/-- `adicionar` preserves the totals invariant: it either leaves the
state unchanged or increments one `total` entry together with exactly one
category entry of the same direction. -/
theorem adicionar_preserves_invTotals (c : Contadores) (hist : List HistEntry)
    (categoriaEn sentido : String) (h : invTotals c) :
    invTotals (adicionar c hist categoriaEn sentido).1 := by
  obtain ⟨h1, h2⟩ := h
  unfold adicionar
  split
  · exact ⟨h1, h2⟩
  split
  · exact ⟨h1, h2⟩
  rename_i hvalid
  rcases not_not.mp hvalid with hida | hvolta
  all_goals
    rcases categoria_getD_cases categoriaEn with hc | hc | hc | hc <;>
      first
        | (simp only [hida, hc, incCat, invTotals]; constructor <;> simp <;> omega)
        | (simp only [hvolta, hc, incCat, invTotals]; constructor <;> simp <;> omega)

/-- `load_counters` establishes the totals invariant unconditionally:
both totals are recomputed as the sum across categories. -/
theorem load_counters_invTotals (rows : List CounterRow) :
    invTotals (load_counters rows) := by
  unfold load_counters recomputeTotals invTotals
  exact ⟨rfl, rfl⟩

/-- C6: at every observation after any sequence of
`adicionar`/`reset`/`load` operations, `contadores['total'][d]` equals the
sum of the four category counters for each direction `d` (and, the
counters being carried as `Nat` — every write is zero, an increment, or a
value saved from such a state — all counts are non-negative). -/
theorem counters_totals_invariant (ops : List CounterOp) :
    invTotals (runOps ops).1 := by
  unfold runOps
  have hinit : invTotals (resetContadores, ([] : List HistEntry)).1 := by decide
  generalize (resetContadores, ([] : List HistEntry)) = s at hinit
  induction ops generalizing s with
  | nil => exact hinit
  | cons op rest ih =>
      rw [List.foldl_cons]
      refine ih (applyOp s op) ?_
      match op with
      | .reset => exact ⟨rfl, rfl⟩
      | .add categoriaEn sentido =>
          exact adicionar_preserves_invTotals s.1 s.2 categoriaEn sentido hinit
      | .load rows => exact load_counters_invTotals rows

/-- C9: saving a snapshot that satisfies the totals invariant and
reloading it reproduces exactly the same structure: every per-category
per-direction value is restored from its row, and the totals recomputed on
load equal the saved totals. -/
theorem save_load_round_trip (c : Contadores) (h : invTotals c) :
    load_counters (save_counters c) = c := by
  obtain ⟨h1, h2⟩ := h
  cases c
  simp only [save_counters, load_counters, resetContadores, applyRow,
    recomputeTotals, List.foldl, reduceIte, Contadores.mk.injEq] at h1 h2 ⊢
  refine ⟨h1.symm, h2.symm, rfl, rfl, rfl, rfl, rfl, rfl, rfl, rfl⟩

/-- Witness for C9 at a concrete snapshot satisfying the invariant. -/
theorem save_load_round_trip_witness :
    invTotals ⟨3, 1, 1, 0, 1, 1, 1, 0, 0, 0⟩ ∧
      load_counters (save_counters ⟨3, 1, 1, 0, 1, 1, 1, 0, 0, 0⟩)
        = ⟨3, 1, 1, 0, 1, 1, 1, 0, 0, 0⟩ :=
  ⟨by decide, save_load_round_trip ⟨3, 1, 1, 0, 1, 1, 1, 0, 0, 0⟩ (by decide)⟩

/-- C10: `adicionar` called with an empty `categoria_en`, or with a
`sentido` other than `'ida'`/`'volta'`, returns without touching either
the counter structure or the history list: invalid input never performs a
partial update. -/
theorem adicionar_invalid_input_is_noop (c : Contadores) (hist : List HistEntry)
    (categoriaEn sentido : String)
    (h : categoriaEn = "" ∨ (sentido ≠ "ida" ∧ sentido ≠ "volta")) :
    adicionar c hist categoriaEn sentido = (c, hist) := by
  unfold adicionar
  rcases h with h | ⟨hi, hv⟩
  · simp [h]
  · split
    · rfl
    · split
      · rfl
      · rename_i hvalid
        exact absurd (not_not.mp hvalid) (by simp [hi, hv])

/-- Witness for C10: an invalid direction leaves a concrete state intact. -/
theorem adicionar_invalid_input_is_noop_witness :
    ("car" = "" ∨ ("sideways" ≠ "ida" ∧ "sideways" ≠ "volta")) ∧
      adicionar ⟨3, 1, 1, 0, 1, 1, 1, 0, 0, 0⟩ [] "car" "sideways"
        = (⟨3, 1, 1, 0, 1, 1, 1, 0, 0, 0⟩, []) :=
  ⟨by decide, adicionar_invalid_input_is_noop _ [] "car" "sideways" (by decide)⟩

/-- C1, counterexample: `adicionar` with the unknown class `'dog'` does
increment a per-category counter — the `'Carros'` fallback of counter.py
line 103 — so the class is not mapped to an uncounted `Undefined`
category. -/
theorem adicionar_unknown_counts_carros_cex :
    categoriaMap "dog" = none ∧
      (adicionar resetContadores [] "dog" "ida").1.carrosIda
        = resetContadores.carrosIda + 1 := by decide

/-- C1, amended: for every unknown non-empty `categoria_en` and a valid
`sentido`, `adicionar` falls back to the `'Carros'` category: it
increments `Carros` and `total` for that direction, leaves the other
three categories untouched, and records a `'Carros'` history entry. -/
theorem adicionar_unknown_fallback_carros (c : Contadores) (hist : List HistEntry)
    (categoriaEn sentido : String) (hunk : categoriaMap categoriaEn = none)
    (hne : categoriaEn ≠ "") (hsent : sentido = "ida" ∨ sentido = "volta") :
    ((sentido = "ida" →
        (adicionar c hist categoriaEn sentido).1
          = { c with carrosIda := c.carrosIda + 1, totalIda := c.totalIda + 1 }) ∧
     (sentido = "volta" →
        (adicionar c hist categoriaEn sentido).1
          = { c with carrosVolta := c.carrosVolta + 1, totalVolta := c.totalVolta + 1 })) ∧
    (adicionar c hist categoriaEn sentido).2
      = hist ++ [⟨categoriaEn, "Carros", sentido⟩] := by
  rcases hsent with hs | hs <;>
    simp [adicionar, hs, hne, hunk, incCat]

/-- Witness for C1 (amended) at a concrete unknown class. -/
theorem adicionar_unknown_fallback_carros_witness :
    (categoriaMap "dog" = none ∧ "dog" ≠ "" ∧ ("ida" = "ida" ∨ "ida" = "volta")) ∧
      (adicionar resetContadores [] "dog" "ida").1
        = { resetContadores with carrosIda := 1, totalIda := 1 } := by
  refine ⟨by decide, ?_⟩
  exact (adicionar_unknown_fallback_carros resetContadores [] "dog" "ida"
    (by decide) (by decide) (Or.inl rfl)).1.1 rfl

example : crossed_horizontal_line (50, 120) (52, 90) 10 200 100 2
    = (true, some ((50 : Rat) + 2/3 * 2), some "ida") := by
  norm_num [crossed_horizontal_line]

/-- C5, counterexample: a step with `prev_y = y_line = 100` and
`curr_y = 120 ≥ y_line`, crossing abscissa `50 ∈ [10, 200]`, emits no
event at all — the claim requires a `volta` (Return) event here. -/
theorem line_at_boundary_cex :
    crossed_horizontal_line (50, 100) (50, 120) 10 200 100 2
      = (false, none, none) := by
  norm_num [crossed_horizontal_line]

/-- C5, amended: for a step whose previous centroid lies exactly on the
line (`prev_y = y_line`), with a non-negative band and `prev_x` (the
crossing abscissa) within `[x1, x2]`, an event is emitted iff
`curr_y < y_line`, and it is a Forward (`ida`) event with
`x_cross = prev_x`; for `curr_y ≥ y_line` no event is emitted — in
particular never both. -/
theorem line_at_boundary_amended (px cx cy x1 x2 y band : Int)
    (hband : 0 ≤ band) (hx1 : x1 ≤ px) (hx2 : px ≤ x2) :
    (cy < y → crossed_horizontal_line (px, y) (cx, cy) x1 x2 y band
        = (true, some (px : Rat), some "ida")) ∧
    (y ≤ cy → crossed_horizontal_line (px, y) (cx, cy) x1 x2 y band
        = (false, none, none)) := by
  have hq1 : (x1 : Rat) ≤ (px : Rat) := by exact_mod_cast hx1
  have hq2 : (px : Rat) ≤ (x2 : Rat) := by exact_mod_cast hx2
  constructor
  · intro hlt
    have hdenom : cy - y ≠ 0 := by omega
    simp only [crossed_horizontal_line]
    rw [if_neg (by omega), if_neg hdenom, sub_self, zero_div,
      if_neg (by norm_num), zero_mul, add_zero, if_pos ⟨hq1, hq2⟩,
      if_pos ⟨le_refl y, hlt⟩]
  · intro hge
    rcases eq_or_lt_of_le hge with heq | hlt
    · simp only [crossed_horizontal_line]
      rw [if_neg (by omega), if_pos (by omega)]
    · have hdenom : cy - y ≠ 0 := by omega
      simp only [crossed_horizontal_line]
      rw [if_neg (by omega), if_neg hdenom, sub_self, zero_div,
        if_neg (by norm_num), zero_mul, add_zero, if_pos ⟨hq1, hq2⟩,
        if_neg (by omega), if_neg (by omega)]

/-- Witness for C5 (amended): concrete steps on both sides of the line. -/
theorem line_at_boundary_amended_witness :
    (0 ≤ (2 : Int) ∧ (10 : Int) ≤ 50 ∧ (50 : Int) ≤ 200) ∧
      crossed_horizontal_line (50, 100) (52, 90) 10 200 100 2
        = (true, some (50 : Rat), some "ida") ∧
      crossed_horizontal_line (50, 100) (50, 120) 10 200 100 2
        = (false, none, none) :=
  ⟨⟨by decide, by decide, by decide⟩,
   (line_at_boundary_amended 50 52 90 10 200 100 2
      (by decide) (by decide) (by decide)).1 (by decide),
   (line_at_boundary_amended 50 50 120 10 200 100 2
      (by decide) (by decide) (by decide)).2 (by decide)⟩

example : apply_roi_crop true ⟨10, 0, 0, 0⟩ 1000 1000 = ((100, 1000), (0, 1000)) := by
  norm_num [apply_roi_crop, clamp50]

/-- C8, counterexample: on a 16×16 frame the crop falls back to the full
extent on both axes, which is only 16 px — the returned crop can be
smaller than 32 px on an axis (whenever the frame itself is). -/
theorem roi_crop_small_frame_cex :
    apply_roi_crop true ⟨0, 0, 0, 0⟩ 16 16 = ((0, 16), (0, 16)) ∧
      ((16 : Int) - 0 < 32) := by
  norm_num [apply_roi_crop, clamp50]

/-- C8, amended: every percent is clamped to `[0, 50]` (a requested 60
yields 50), and on each axis the result is either the full frame extent
or an inner window of at least 32 px; hence the crop is at least 32 px on
every axis on which the frame itself is at least 32 px. -/
theorem roi_crop_amended (useRoi : Bool) (cfg : RoiCrop) (h w : Nat) :
    clamp50 60 = 50 ∧ (∀ p : Rat, 0 ≤ clamp50 p ∧ clamp50 p ≤ 50) ∧
    ((apply_roi_crop useRoi cfg h w).1 = (0, (h : Int)) ∨
      32 ≤ (apply_roi_crop useRoi cfg h w).1.2 - (apply_roi_crop useRoi cfg h w).1.1) ∧
    ((apply_roi_crop useRoi cfg h w).2 = (0, (w : Int)) ∨
      32 ≤ (apply_roi_crop useRoi cfg h w).2.2 - (apply_roi_crop useRoi cfg h w).2.1) ∧
    (32 ≤ h → 32 ≤ (apply_roi_crop useRoi cfg h w).1.2 - (apply_roi_crop useRoi cfg h w).1.1) ∧
    (32 ≤ w → 32 ≤ (apply_roi_crop useRoi cfg h w).2.2 - (apply_roi_crop useRoi cfg h w).2.1) := by
  refine ⟨by norm_num [clamp50], fun p => ⟨le_max_left _ _, max_le (by norm_num) (min_le_left _ _)⟩, ?_⟩
  unfold apply_roi_crop
  split
  · refine ⟨Or.inl rfl, Or.inl rfl, ?_, ?_⟩ <;> intro hge <;> simp <;> omega
  · simp only []
    constructor
    · split
      · exact Or.inl rfl
      · rename_i hcond; right; omega
    constructor
    · split
      · exact Or.inl rfl
      · rename_i hcond; right; omega
    constructor
    · intro hge; split
      · simp; omega
      · rename_i hcond; omega
    · intro hge; split
      · simp; omega
      · rename_i hcond; omega

/-- Witness for C8 (amended): a 100×100 frame with an out-of-range
requested top percent of 60. -/
theorem roi_crop_amended_witness :
    (32 ≤ (100 : Nat)) ∧
      32 ≤ (apply_roi_crop true ⟨60, 0, 0, 0⟩ 100 100).1.2
            - (apply_roi_crop true ⟨60, 0, 0, 0⟩ 100 100).1.1 :=
  ⟨by decide, (roi_crop_amended true ⟨60, 0, 0, 0⟩ 100 100).2.2.2.2.1 (by decide)⟩

/-- C7, counterexample: with two frames buffered (frame 1 pushed before
frame 2), `read` returns frame 1 — the oldest queued frame, not the most
recent one. -/
theorem read_returns_oldest_cex :
    (pushFrame (pushFrame ⟨3, [], none, 0⟩ 1) 2).frameQueue = [1, 2] ∧
      (readCapture (pushFrame (pushFrame ⟨3, [], none, 0⟩ 1) 2) 1).1 = (true, some 1) ∧
      (readCapture (pushFrame (pushFrame ⟨3, [], none, 0⟩ 1) 2) 1).1 ≠ (true, some 2) := by
  decide

/-- C7, amended: `read` returns the oldest queued frame (the FIFO head;
the reader pushes at the back, so after two pushes into an empty buffer
`read` delivers the first). On an empty queue it fails iff a frame was
delivered before and more than `FREEZE_TIMEOUT = 10` s have elapsed since
(Frozen), or no good frame exists at all (NoData); otherwise it returns
the last good frame. -/
theorem read_buffered_amended (s : CaptureState) (now : Rat) :
    (∀ f rest, s.frameQueue = f :: rest →
        readCapture s now = ((true, some f),
          { s with frameQueue := rest, lastNewFrameTime := now, lastGoodFrame := some f })) ∧
    (s.frameQueue = [] → 2 ≤ s.bufferSize → ∀ f1 f2,
        (readCapture (pushFrame (pushFrame s f1) f2) now).1 = (true, some f1)) ∧
    (s.frameQueue = [] →
      ((readCapture s now).1 = (false, none) ↔
        ((0 < s.lastNewFrameTime ∧ FREEZE_TIMEOUT < now - s.lastNewFrameTime) ∨
          s.lastGoodFrame = none)) ∧
      (¬ (0 < s.lastNewFrameTime ∧ FREEZE_TIMEOUT < now - s.lastNewFrameTime) →
        ∀ g, s.lastGoodFrame = some g → readCapture s now = ((true, some g), s))) := by
  refine ⟨?_, ?_, ?_⟩
  · intro f rest hq
    simp [readCapture, hq]
  · intro hq hb f1 f2
    have h1 : ¬ s.bufferSize ≤ 1 := by omega
    simp [pushFrame, hq, readCapture, h1]
  · intro hq
    constructor
    · simp only [readCapture, hq]
      split
      · rename_i hfrozen
        simp [hfrozen]
      · rename_i hfrozen
        cases hgood : s.lastGoodFrame <;> simp [hgood, hfrozen]
    · intro hfrozen g hgood
      simp [readCapture, hq, hfrozen, hgood]

/-- Witness for C7 (amended), at a non-empty buffer, a push-push-read
sequence, a frozen empty state, and a fallback empty state. -/
theorem read_buffered_amended_witness :
    readCapture ⟨3, [7, 8], some 6, 1⟩ 2
        = ((true, some 7), ⟨3, [8], some 7, 2⟩) ∧
      (readCapture (pushFrame (pushFrame ⟨3, [], none, 0⟩ 1) 2) 1).1 = (true, some 1) ∧
      ((readCapture ⟨3, [], some 6, 1⟩ 20).1 = (false, none) ↔
        ((0 < (1 : Rat) ∧ FREEZE_TIMEOUT < (20 : Rat) - 1) ∨ (some 6 : Option Nat) = none)) ∧
      readCapture ⟨3, [], some 6, 1⟩ 5 = ((true, some 6), ⟨3, [], some 6, 1⟩) :=
  ⟨(read_buffered_amended ⟨3, [7, 8], some 6, 1⟩ 2).1 7 [8] rfl,
   (read_buffered_amended ⟨3, [], none, 0⟩ 1).2.1 rfl (by norm_num) 1 2,
   (read_buffered_amended ⟨3, [], some 6, 1⟩ 20).2.2 rfl |>.1,
   (read_buffered_amended ⟨3, [], some 6, 1⟩ 5).2.2 rfl |>.2
     (by rw [FREEZE_TIMEOUT]; norm_num) 6 rfl⟩

/-- `roundHalfEven` never rounds below the floor. -/
theorem roundHalfEven_ge_floor (q : Rat) : ⌊q⌋ ≤ roundHalfEven q := by
  unfold roundHalfEven
  split
  · exact le_refl _
  split
  · omega
  split
  · exact le_refl _
  · omega

/-- Rounding to centi-seconds cannot cross a centi-second threshold from
above: if `k/100 ≤ w` then `k/100 ≤ round2 w`. -/
theorem round2_ge_of_centi (k : Int) (w : Rat) (h : (k : Rat) / 100 ≤ w) :
    (k : Rat) / 100 ≤ round2 w := by
  unfold round2
  have h100 : (0 : Rat) < 100 := by norm_num
  rw [div_le_div_iff_of_pos_right h100, Int.cast_le]
  calc k ≤ ⌊w * 100⌋ := Int.le_floor.mpr (by
          calc (k : Rat) = k / 100 * 100 := by ring
          _ ≤ w * 100 := mul_le_mul_of_nonneg_right h (by norm_num))
    _ ≤ roundHalfEven (w * 100) := roundHalfEven_ge_floor _

/-- The present-track step either leaves the persisted events unchanged
or appends exactly one event whose recorded wait is `round2` of a wait at
or above the threshold, with the update time as exit. -/
theorem qmStepPresent_dbEvents (minWait : Rat) (s : QMState) (inside : Bool)
    (tid : Nat) (t : Rat) (v0 : QVehicle) :
    (qmStepPresent minWait s inside tid t v0).1.dbEvents = s.dbEvents ∨
    ∃ w en, minWait ≤ w ∧
      (qmStepPresent minWait s inside tid t v0).1.dbEvents
        = s.dbEvents ++ [⟨tid, en, t, round2 w⟩] := by
  unfold qmStepPresent finalizeVehicle
  rcases hph : v0.phase with _ | _ | _ <;> simp only [hph]
  all_goals repeat' split
  all_goals
    first
      | (left; first | rfl | trivial)
      | (rename_i hnl; exact Or.inr ⟨_, _, le_of_not_lt hnl, rfl⟩)

/-- One `update` either leaves the persisted events unchanged or appends
exactly one event whose recorded wait is `round2` of a wait at or above
the threshold, with the stored entry epoch and the update time as exit. -/
theorem qmUpdate_dbEvents_cases (minWait : Rat) (s : QMState) (present inside : Bool)
    (tid : Nat) (t : Rat) :
    (qmUpdate minWait s present inside tid t).dbEvents = s.dbEvents ∨
    ∃ w en, minWait ≤ w ∧
      (qmUpdate minWait s present inside tid t).dbEvents
        = s.dbEvents ++ [⟨tid, en, t, round2 w⟩] := by
  unfold qmUpdate
  split
  · have h := qmStepPresent_dbEvents minWait s inside tid t (s.vehicle.getD initVehicle)
    split
    · exact h
    · exact h
  · rcases hv : s.vehicle with _ | v <;> simp only [hv]
    · exact Or.inl trivial
    · split
      · unfold finalizeVehicle
        split
        · exact Or.inl rfl
        · rename_i hnl
          exact Or.inr ⟨_, _, le_of_not_lt hnl, rfl⟩
      · exact Or.inl rfl

/-- Every event persisted along a trace has its rounded wait at or above
a centi-second-valued threshold. -/
theorem qmRun_wait_ge_min (k : Int) (steps : List (Bool × Bool × Rat)) (tid : Nat) :
    ∀ ev ∈ (qmRun ((k : Rat) / 100) steps tid).dbEvents, (k : Rat) / 100 ≤ ev.waitSec := by
  unfold qmRun
  have hinit : ∀ ev ∈ (⟨none, [], []⟩ : QMState).dbEvents, (k : Rat) / 100 ≤ ev.waitSec := by
    intro ev hev; simp at hev
  generalize (⟨none, [], []⟩ : QMState) = s at hinit
  induction steps generalizing s with
  | nil => exact hinit
  | cons st rest ih =>
      rw [List.foldl_cons]
      refine ih _ ?_
      intro ev hev
      rcases qmUpdate_dbEvents_cases ((k : Rat) / 100) s st.1 st.2.1 tid st.2.2 with
        hsame | ⟨w, en, hw, happ⟩
      · exact hinit ev (hsame ▸ hev)
      · rw [happ, List.mem_append] at hev
        rcases hev with hev | hev
        · exact hinit ev hev
        · simp at hev
          rw [hev]
          exact round2_ge_of_centi k w hw

/-- C4, counterexample: a vehicle enters the queue at `t = 2`, is last
observed inside at `t = 12` (`current_wait = 10`), and disappears; the
cleanup of the update at `t = 20` finalizes it. The persisted event has
`wait_seconds = 10` but `exit_time − entry_time = 18`: the claimed
equality `wait_seconds = exit_time − entry_time` fails on the
disappearance path. -/
theorem queue_event_wait_cex :
    DEFAULT_MIN_WAIT = 5 ∧
      (qmRun DEFAULT_MIN_WAIT [(true, true, 0), (true, true, 1), (true, true, 2),
              (true, true, 12), (false, false, 20)] 11).dbEvents
        = [⟨11, 2, 20, 10⟩] ∧
      (10 : Rat) ≠ 20 - 2 ∧ DEFAULT_MIN_WAIT ≤ 10 := by
  refine ⟨rfl, ?_, by norm_num, by norm_num [DEFAULT_MIN_WAIT]⟩
  have e1 : (12 : Rat) - 2 = 10 := by norm_num
  have e2 : (20 : Rat) - 2 = 18 := by norm_num
  have hr : round2 10 = 10 := by norm_num [round2, roundHalfEven]
  simp +decide [qmRun, qmUpdate, qmStepPresent, finalizeVehicle, initVehicle,
    DEFAULT_MIN_WAIT, ENTER_FRAMES, EXIT_FRAMES, e1, e2, hr]

/-- C4, amended: a finalization emits and persists an event iff the
vehicle's `current_wait` is at least `min_wait_time` (default 5 s); below
the threshold nothing is appended to the session history and the database
is not called. The recorded `wait_seconds` is `current_wait` rounded to
two decimals, which on the exit-debounce path equals the rounded
`exit_time − entry_time`; on the disappearance path `current_wait` stems
from the last update that observed the vehicle and can be smaller than
`exit_time − entry_time`. Every persisted `wait_seconds` is still at
least the (centi-second-valued) threshold. -/
theorem queue_finalize_amended :
    (∀ (minWait : Rat) (s : QMState) (v : QVehicle) (tid : Nat) (t : Rat),
        v.currentWait < minWait →
          finalizeVehicle minWait s v tid t = (s, { v with phase := .finished })) ∧
    (∀ (minWait : Rat) (s : QMState) (v : QVehicle) (tid : Nat) (t : Rat),
        minWait ≤ v.currentWait →
          finalizeVehicle minWait s v tid t
            = ({ s with
                  sessionHistory := s.sessionHistory
                    ++ [⟨tid, v.entryTime, t, round2 v.currentWait⟩],
                  dbEvents := s.dbEvents
                    ++ [⟨tid, v.entryTime, t, round2 v.currentWait⟩] },
               { v with phase := .finished })) ∧
    (∀ (minWait : Rat) (s : QMState) (v : QVehicle) (tid : Nat) (t : Rat),
        s.vehicle = some v → v.phase = .inQueue →
        EXIT_FRAMES ≤ v.framesOutside + 1 → minWait ≤ t - v.entryTime →
          (qmUpdate minWait s true false tid t).dbEvents
            = s.dbEvents ++ [⟨tid, v.entryTime, t, round2 (t - v.entryTime)⟩]) ∧
    (∀ (k : Int) (steps : List (Bool × Bool × Rat)) (tid : Nat),
        ∀ ev ∈ (qmRun ((k : Rat) / 100) steps tid).dbEvents,
          (k : Rat) / 100 ≤ ev.waitSec) := by
  refine ⟨?_, ?_, ?_, qmRun_wait_ge_min⟩
  · intro minWait s v tid t hlt
    simp [finalizeVehicle, hlt]
  · intro minWait s v tid t hge
    simp [finalizeVehicle, not_lt.mpr hge]
  · intro minWait s v tid t hv hph hfo hge
    simp only [qmUpdate, if_true, hv, Option.getD_some, qmStepPresent, hph]
    rw [if_pos (by simp : ¬ false = true)]
    rw [if_pos hfo]
    simp [finalizeVehicle, not_lt.mpr hge]

/-- Witness for C4 (amended): a concrete short wait is discarded, a
concrete long wait is persisted with the rounded wait, a concrete
exit-debounce update appends the event, and the threshold bound holds on
a concrete trace. -/
theorem queue_finalize_amended_witness :
    finalizeVehicle 5 ⟨none, [], []⟩ ⟨.inQueue, 2, 3, 0, 11⟩ 7 9
        = (⟨none, [], []⟩, ⟨.finished, 2, 3, 0, 11⟩) ∧
      finalizeVehicle 5 ⟨none, [], []⟩ ⟨.inQueue, 2, 10, 0, 11⟩ 7 12
        = (⟨none, [⟨7, 2, 12, round2 10⟩], [⟨7, 2, 12, round2 10⟩]⟩,
           ⟨.finished, 2, 10, 0, 11⟩) ∧
      (qmUpdate 5 ⟨some ⟨.inQueue, 2, 9, 0, 11⟩, [], []⟩ true false 7 12).dbEvents
        = [⟨7, 2, 12, round2 10⟩] ∧
      ∀ ev ∈ (qmRun ((500 : Int) / 100)
          [(true, true, 0), (true, true, 1), (true, true, 2),
           (true, true, 12), (false, false, 20)] 11).dbEvents,
        ((500 : Int) : Rat) / 100 ≤ ev.waitSec :=
  ⟨queue_finalize_amended.1 5 ⟨none, [], []⟩ ⟨.inQueue, 2, 3, 0, 11⟩ 7 9 (by norm_num),
   queue_finalize_amended.2.1 5 ⟨none, [], []⟩ ⟨.inQueue, 2, 10, 0, 11⟩ 7 12 (by norm_num),
   by
     have h := queue_finalize_amended.2.2.1 5 ⟨some ⟨.inQueue, 2, 9, 0, 11⟩, [], []⟩
       ⟨.inQueue, 2, 9, 0, 11⟩ 7 12 rfl rfl (by norm_num [EXIT_FRAMES]) (by norm_num)
     have e1 : (12 : Rat) - 2 = 10 := by norm_num
     simpa [e1] using h,
   queue_finalize_amended.2.2.2 500
     [(true, true, 0), (true, true, 1), (true, true, 2),
      (true, true, 12), (false, false, 20)] 11⟩

/-- `applyCount` either emits nothing and keeps the flags, or emits a
direction whose flag was unset and sets exactly that flag. -/
theorem applyCount_spec (counted : Bool × Bool) (target : Option String) :
    ((applyCount counted target).2 = none ∧ (applyCount counted target).1 = counted) ∨
    ((applyCount counted target).2 = some "ida" ∧ counted.1 = false ∧
      (applyCount counted target).1 = (true, counted.2)) ∨
    ((applyCount counted target).2 = some "volta" ∧ counted.2 = false ∧
      (applyCount counted target).1 = (counted.1, true)) := by
  unfold applyCount
  repeat' split
  · rename_i h
    exact Or.inr (Or.inl ⟨rfl, by simpa using h.2, rfl⟩)
  · rename_i h
    exact Or.inr (Or.inr ⟨rfl, by simpa using h.2, rfl⟩)
  · exact Or.inl ⟨rfl, rfl⟩

/-- Line mode always goes through the shared guarded count. -/
theorem lineStep_spec (cfg : LineCfg) (counted : Bool × Bool) (prev curr : Int × Int) :
    ∃ target, lineStep cfg counted prev curr = applyCount counted target :=
  ⟨_, rfl⟩

/-- Zone mode always goes through the shared guarded count. -/
theorem zoneStep_spec (cfg : ZoneCfg) (counted : Bool × Bool)
    (lastZone : Option ZoneTag) (lastEvt : Rat) (curr : Int × Int) (t : Rat) :
    ∃ target, (zoneStep cfg counted lastZone lastEvt curr t).1
      = applyCount counted target :=
  ⟨_, rfl⟩

/-- Every `trackStep` updates the `counted` flags and emits through the
shared guarded count. -/
theorem trackStep_spec (mode : String) (lc : LineCfg) (zc : ZoneCfg)
    (ts : Option TrackState) (curr : Int × Int) (t : Rat) :
    ∃ target,
      ((trackStep mode lc zc ts curr t).1.countedIda,
       (trackStep mode lc zc ts curr t).1.countedVolta)
          = (applyCount (countedOf ts) target).1 ∧
      (trackStep mode lc zc ts curr t).2 = (applyCount (countedOf ts) target).2 := by
  by_cases hm : mode = "line"
  · refine ⟨lineTarget lc (crossed_horizontal_line (prevOf ts curr) curr
        lc.lx1 lc.lx2 lc.ly lc.band), ?_, ?_⟩ <;>
      simp [trackStep, hm, lineStep]
  · refine ⟨zoneTarget zc (lastZoneOf ts) (lastEvtOf ts)
        (if inRect curr zc.downRect then some .down
         else if inRect curr zc.upRect then some .up else none) t, ?_, ?_⟩ <;>
      simp [trackStep, hm, zoneStep]

/-- One frame preserves the bound: the event counts never exceed the
`counted` flags seen as 0/1. -/
theorem runStep_invariant (acc : Option TrackState × List String)
    (st : String × LineCfg × ZoneCfg × (Int × Int) × Rat)
    (h1 : acc.2.count "ida" ≤ (if (countedOf acc.1).1 then 1 else 0))
    (h2 : acc.2.count "volta" ≤ (if (countedOf acc.1).2 then 1 else 0)) :
    (runStep acc st).2.count "ida"
        ≤ (if (countedOf (runStep acc st).1).1 then 1 else 0) ∧
    (runStep acc st).2.count "volta"
        ≤ (if (countedOf (runStep acc st).1).2 then 1 else 0) := by
  obtain ⟨target, hc, he⟩ :=
    trackStep_spec st.1 st.2.1 st.2.2.1 acc.1 st.2.2.2.1 st.2.2.2.2
  have hfst : (countedOf (runStep acc st).1).1
      = (applyCount (countedOf acc.1) target).1.1 := congrArg Prod.fst hc
  have hsnd : (countedOf (runStep acc st).1).2
      = (applyCount (countedOf acc.1) target).1.2 := congrArg Prod.snd hc
  have hev : (runStep acc st).2
      = acc.2 ++ (applyCount (countedOf acc.1) target).2.toList := by
    show acc.2 ++ _ = _
    rw [he]
  rcases applyCount_spec (countedOf acc.1) target with
    ⟨hn, hkeep⟩ | ⟨hi, hflag, hset⟩ | ⟨hv, hflag, hset⟩
  · rw [hev, hn]
    constructor
    · rw [hfst, hkeep]
      simpa using h1
    · rw [hsnd, hkeep]
      simpa using h2
  · constructor
    · rw [hev, hi, hfst, hset]
      have h0 : acc.2.count "ida" = 0 := by
        rw [hflag] at h1
        simpa using h1
      simp [List.count_append, h0]
    · rw [hev, hi, hsnd, hset]
      have hz : ([("ida" : String)]).count "volta" = 0 := by decide
      simpa [List.count_append, hz] using h2
  · constructor
    · rw [hev, hv, hfst, hset]
      have hz : ([("volta" : String)]).count "ida" = 0 := by decide
      simpa [List.count_append, hz] using h1
    · rw [hev, hv, hsnd, hset]
      have h0 : acc.2.count "volta" = 0 := by
        rw [hflag] at h2
        simpa using h2
      simp [List.count_append, h0]

/-- C3: over any lifetime trace of one track, in either counting mode
(even switching modes or configuration between frames), at most one
`ida` event and at most one `volta` event are ever emitted: once
`counted[d]` is set, no further event for `d` occurs. -/
theorem at_most_one_count_per_direction
    (steps : List (String × LineCfg × ZoneCfg × (Int × Int) × Rat)) :
    (runTrack steps).2.count "ida" ≤ 1 ∧ (runTrack steps).2.count "volta" ≤ 1 := by
  unfold runTrack
  have key : ∀ (l : List (String × LineCfg × ZoneCfg × (Int × Int) × Rat))
      (acc : Option TrackState × List String),
      acc.2.count "ida" ≤ (if (countedOf acc.1).1 then 1 else 0) →
      acc.2.count "volta" ≤ (if (countedOf acc.1).2 then 1 else 0) →
      (l.foldl runStep acc).2.count "ida"
          ≤ (if (countedOf (l.foldl runStep acc).1).1 then 1 else 0) ∧
      (l.foldl runStep acc).2.count "volta"
          ≤ (if (countedOf (l.foldl runStep acc).1).2 then 1 else 0) := by
    intro l
    induction l with
    | nil => exact fun acc h1 h2 => ⟨h1, h2⟩
    | cons st rest ih =>
        intro acc h1 h2
        rw [List.foldl_cons]
        obtain ⟨g1, g2⟩ := runStep_invariant acc st h1 h2
        exact ih _ g1 g2
  obtain ⟨k1, k2⟩ := key steps (none, []) (by simp [countedOf]) (by simp [countedOf])
  exact ⟨le_trans k1 (by split <;> omega), le_trans k2 (by split <;> omega)⟩

/-- C2: the safety property claimed — the native handle is never released
while a native read is in flight — fails on the code: under
`staleTrackingSchedule` every step is an enabled transition of the
embedded source, yet the final state has `base_capture.release()`
performed (`released = true`) while sub-thread 0 is still inside
`base_capture.read()` (`inFlight = [0]`). The stale clear in
`_safe_base_read` (detector.py 241-243 after a timed-out join) makes
`release()` find no tracked read thread to wait for. -/
theorem release_while_read_in_flight :
    (relRun staleTrackingSchedule).map
        (fun s => (s.released, s.inFlight, s.rphase, s.lphase))
      = some (true, [0], RPhase.finished, LPhase.finished) := by
  decide

end SysMonit
